import Mathlib

/-!
Verification of the swift migration tooling (src/migration): a shallow
embedding of `swift-migrate.py`, `swift-check-deleted.py`,
`swift-check-duplicate.py` and `util.py`, with theorems settling the
frozen claims about the skip decider, the hash pattern, error
containment, tenant bucketing, the reconcilers and the entry points.
-/

/-! ### The hash pattern (swift-migrate.py:55, `HASH_PATTERN = re.compile('\w+-\w+')`)

Python 2 `re` without `re.UNICODE`: `\w` is `[a-zA-Z0-9_]`.  The code always
uses `HASH_PATTERN.match(s)`, i.e. an anchored-at-start search: it succeeds
exactly when some prefix of `s` is word-chars, a dash, and at least one more
word char.  Since `\w` cannot match `-`, the dash of a successful match must
sit at the first non-word position of `s`. -/

def isWordChar (c : Char) : Bool := c.isAlpha || c.isDigit || c == '_'

/-- After at least one word char has been read: keep reading word chars; at
the first non-word char, require it to be `-` followed by a word char
(`re.match` semantics: the rest of the string is unconstrained). -/
def reMatchTail : List Char → Bool
  | [] => false
  | c :: rest =>
    if isWordChar c then reMatchTail rest
    else c == '-' &&
      (match rest with
       | [] => false
       | d :: _ => isWordChar d)

def reMatchHashList : List Char → Bool
  | [] => false
  | c :: rest => isWordChar c && reMatchTail rest

/-- `HASH_PATTERN.match(s) is not None` for `HASH_PATTERN = re.compile('\w+-\w+')`. -/
def reMatchHash (s : String) : Bool := reMatchHashList s.data

/-- Modelled from the spec: the anchored pattern `^\w+-\w+$` (full-string
match), used by the spec's S3-multipart rule.  The whole string must be
word chars, one dash, word chars. -/
def fullMatchTail : List Char → Bool
  | [] => false
  | c :: rest =>
    if isWordChar c then fullMatchTail rest
    else c == '-' && !rest.isEmpty && rest.all isWordChar

def fullMatchHashList : List Char → Bool
  | [] => false
  | c :: rest => isWordChar c && fullMatchTail rest

/-- Modelled from the spec: `re.fullmatch`-style anchored `^\w+-\w+$`. -/
def fullMatchHash (s : String) : Bool := fullMatchHashList s.data

/-! ### Object descriptors and headers -/

/-- `src_object` as it appears in a container listing: `item['name']`,
`item['bytes']`, `item['hash']` (swift-migrate.py). -/
structure SrcObject where
  name : String
  bytes : Nat
  hash : String
deriving DecidableEq, Repr

/-- The header fields of an object that the migration code reads
(lowercased keys).  `none` models an absent header. -/
structure ObjHeaders where
  etag : String
  contentLength : Nat
  objectManifest : Option String
  staticLargeObject : Option String
  oldHash : Option String
deriving DecidableEq, Repr

/-- Python truthiness of `header.get(key, False)`: the key is present with a
non-empty string value.  (`dict.get` returns `False` when absent; an empty
string is falsy.) -/
def truthy (v : Option String) : Bool := !(v.getD "" == "")

/-- `OLD_HASH_HEADER` (swift-migrate.py:51). -/
def OLD_HASH_HEADER : String := "x-object-meta-old-hash"

/-! ### The skip decider (`check_migrate_object`, swift-migrate.py:116-148)

The target stat is passed as `Option ObjHeaders`: `none` models
`not tgt_obj['success']` (target object absent), `some h` a successful stat
with headers `h`.  Returns `true` when migration is needed (Transfer),
`false` for Skip, exactly mirroring the source's early returns. -/

def check_migrate_object (src : SrcObject) (src_header : ObjHeaders)
    (tgt : Option ObjHeaders) : Bool :=
  match tgt with
  | none => true
  | some tgt_header =>
    -- For multi-part large object hash check (lines 131-133).
    if reMatchHash src.hash && (tgt_header.oldHash.getD "" == src.hash) then false
    -- For DLO, skip if content-length is equal (lines 137-142).
    else if truthy src_header.objectManifest &&
        (src_header.contentLength == tgt_header.contentLength) then false
    -- For normal object etag check (lines 145-146).
    else if tgt_header.etag == src.hash then false
    else true

inductive Decision where
  | Skip
  | Transfer
deriving DecidableEq, Repr

/-- Modelled from the spec (§4.4): the skip decider as the spec words it —
Transfer when the target is absent, otherwise Skip exactly when one of the
three rules fires; "source is S3Multipart" reads the multipart pattern on
the source hash, "target header x-object-meta-old-hash == source hash" is a
literal header comparison, "source has x-object-manifest" is literal
presence of the header. -/
def skip_decider_spec (src : SrcObject) (src_header : ObjHeaders)
    (tgt : Option ObjHeaders) : Decision :=
  match tgt with
  | none => Decision.Transfer
  | some tgt_header =>
    if (reMatchHash src.hash && (tgt_header.oldHash == some src.hash))
       || (src_header.objectManifest.isSome &&
           (src_header.contentLength == tgt_header.contentLength))
       || (tgt_header.etag == src.hash)
    then Decision.Skip else Decision.Transfer

/-! ### Header construction in `migrate_object` (swift-migrate.py:284-297) -/

/-- `get_object_user_meta` (swift-migrate.py:274-281): collect
`'%s:%s' % (key, value)` for every header whose lowercased key starts with
`x-object-meta-`. -/
def get_object_user_meta (object_header : List (String × String)) : List String :=
  object_header.filterMap
    (fun kv =>
      if kv.1.toLower.startsWith "x-object-meta-" then some (kv.1 ++ ":" ++ kv.2)
      else none)

/-- The `header_list` built by `migrate_object` (swift-migrate.py:294-297):
the old-hash marker exactly when `HASH_PATTERN.match(src_object['hash'])`,
then the user metadata. -/
def migrate_object_header_list (src : SrcObject)
    (src_head : List (String × String)) : List String :=
  (if reMatchHash src.hash then [OLD_HASH_HEADER ++ ":" ++ src.hash] else []) ++
    get_object_user_meta src_head

/-! ### What a successful first copy run guarantees about the target
(`migrate_DLO` swift-migrate.py:173-186, `migrate_SLO` 189-223,
`migrate_object` 284-360, `check_migrate_after` 151-170)

For a DLO the tool writes a manifest object carrying the source's
`x-object-manifest` verbatim and `check_migrate_after` skips verification;
with the source unchanged and its segments in place, the server-reported
length of the manifest object equals the source's reported length.  For
every other variant the tool writes `x-object-meta-old-hash` equal to the
source hash exactly when `HASH_PATTERN.match` succeeds (`migrate_object`;
`migrate_SLO` writes no such marker), and `check_migrate_after` raises
unless the marker is present or the target etag equals the source hash —
so a run that completed without error left one of the two states below. -/

def migrated_target_ok (src : SrcObject) (src_header tgt_header : ObjHeaders) : Prop :=
  (truthy src_header.objectManifest = true →
    tgt_header.contentLength = src_header.contentLength) ∧
  (truthy src_header.objectManifest = false →
    ((reMatchHash src.hash = true ∧ tgt_header.oldHash = some src.hash) ∨
     (tgt_header.oldHash = none ∧ tgt_header.etag = src.hash)))

/-! ### Tenants and bucketing (`util.py`) -/

structure Tenant where
  id : String
  name : String
deriving DecidableEq, Repr

/-- Python `range(0, stop, step)` for `step ≥ 1`. -/
def pyRange (stop step : Nat) : List Nat :=
  (List.range ((stop + step - 1) / step)).map (fun i => i * step)

/-- `_chunks` (util.py:23-26): `n = int(math.ceil(len(arr) / float(m)))`,
then `[arr[i:i + n] for i in range(0, len(arr), n)]`.  For an empty `arr`
(and `m ≥ 1`) the chunk size `n` is `0` and `range(0, 0, 0)` raises
`ValueError`, modelled as the error return. -/
def _chunks {α : Type} (arr : List α) (m : Nat) : Except String (List (List α)) :=
  let n := (arr.length + m - 1) / m
  if n = 0 then Except.error "ValueError: range() arg 3 must not be zero"
  else Except.ok ((pyRange arr.length n).map (fun i => (arr.drop i).take n))

/-- Lookup in `tenants_map` (util.py:52-54): the dict is built by updating
with each tenant in order, so a repeated name keeps the last tenant. -/
def tenants_map_lookup (tenants : List Tenant) (name : String) : Option Tenant :=
  tenants.reverse.find? (fun t => t.name == name)

/-- `_get_tenants_group` (util.py:43-87) on the include-list path with
`multiprocess=True`: reject unknown names (`exit(1)`), otherwise take
`actual_tnames = args.include_tenants` verbatim — duplicates included —
resolve each through `tenants_map`, and chunk by the concurrency. -/
def _get_tenants_group_include (tenants : List Tenant)
    (include_tenants : List String) (concurrency : Nat) :
    Except String (List (List Tenant)) :=
  if include_tenants.any (fun n => (tenants_map_lookup tenants n).isNone) then
    Except.error "exit(1): Invalid tenants"
  else
    _chunks (include_tenants.filterMap (fun n => tenants_map_lookup tenants n))
      concurrency

/-! ### `check_tenant_access` (util.py:113-118)

The for/else grants the role when no role named `admin` or `args.role` is
found; but the else branch reads the name `keycon`, which is bound nowhere
(the parameter is `keyconn` and `util.py` has no global `keycon`), so
reaching it raises `NameError` instead of granting. -/

def check_tenant_access (role_arg : String) (user_role_names : List String) :
    Except String Unit :=
  if user_role_names.any (fun r => r == "admin" || r == role_arg) then
    Except.ok ()
  else
    Except.error "NameError: global name 'keycon' is not defined"

/-! ### The module attributes of `util.py` and the entry points -/

/-- Every name bound at module level in `util.py`: the four imports and the
thirteen function definitions.  `check_user_access` is not among them. -/
def utilModuleAttrs : List String :=
  ["math", "k_client", "swiftclient", "SwiftService",
   "_chunks", "keystone_connect", "_get_tenants_group", "get_tenant_group",
   "get_user_role", "check_tenant_access", "get_connection",
   "get_service_client", "get_all_containers", "get_all_objects",
   "delete_container", "delete_objects", "rename_container"]

/-- Python attribute lookup on the `util` module. -/
def getattr_util (attr : String) : Except String String :=
  if utilModuleAttrs.contains attr then Except.ok attr
  else Except.error
    ("AttributeError: 'module' object has no attribute '" ++ attr ++ "'")

/-- `main` of swift-migrate.py after the password prompt: line 672 is
`tenants_group = util.check_user_access(args, key, multiprocess=True)`, the
first use of `util`; worker processes are only started afterwards
(lines 685-691).  The result counts workers launched; the `ok` arm is
unreachable because the attribute lookup fails. -/
def migrate_main_startup : Except String Nat :=
  match getattr_util "check_user_access" with
  | Except.error e => Except.error e
  | Except.ok _ => Except.ok 0

/-- `main` of swift-check-deleted.py: line 164 is
`tenants = util.check_user_access(args, key, multiprocess=False)`, before
`check_deleted` runs over any tenant. -/
def check_deleted_main_startup : Except String Nat :=
  match getattr_util "check_user_access" with
  | Except.error e => Except.error e
  | Except.ok _ => Except.ok 0

/-! ### The per-object loop of `migrate_container` (swift-migrate.py:363-404)

For each listed object the code stats the source object (line 369; a failed
stat leaves `src_obj` without a `'headers'` key, so line 374 raises
`KeyError`), runs `check_migrate_object`, and only then enters the
`try` block covering the per-variant migration and `check_migrate_after`.
`statOutcome` models the source stat (error = the raised exception),
`tgtStat` the target stat inside the skip decision, and `migOutcome` the
whole `try` body.  Audit lines written inside the migration itself are
elided; the `existing object`, `creating object` and `..failed. Reason:`
lines of `migrate_container` are kept. -/

structure ObjProc where
  src : SrcObject
  statOutcome : Except String ObjHeaders
  tgtStat : Option ObjHeaders
  migOutcome : Except String Unit

def migrate_container_sim : List ObjProc → List String → Except String (List String)
  | [], content => Except.ok content
  | o :: rest, content =>
    match o.statOutcome with
    | Except.error e => Except.error e
    | Except.ok src_ohead =>
      if check_migrate_object o.src src_ohead o.tgtStat then
        match o.migOutcome with
        | Except.ok _ =>
          migrate_container_sim rest
            (content ++
              ["            creating object: " ++ o.src.name ++ ",\tbytes: " ++
                toString o.src.bytes])
        | Except.error e =>
          migrate_container_sim rest
            (content ++
              ["            creating object: " ++ o.src.name ++ ",\tbytes: " ++
                toString o.src.bytes,
               "             ..failed. Reason: " ++ e])
      else
        migrate_container_sim rest
          (content ++ ["            existing object: " ++ o.src.name])

/-- The audit lines one object contributes when its source stat succeeds. -/
def object_audit_lines (o : ObjProc) : List String :=
  match o.statOutcome with
  | Except.error _ => []
  | Except.ok src_ohead =>
    if check_migrate_object o.src src_ohead o.tgtStat then
      match o.migOutcome with
      | Except.ok _ =>
        ["            creating object: " ++ o.src.name ++ ",\tbytes: " ++
          toString o.src.bytes]
      | Except.error e =>
        ["            creating object: " ++ o.src.name ++ ",\tbytes: " ++
          toString o.src.bytes,
         "             ..failed. Reason: " ++ e]
    else ["            existing object: " ++ o.src.name]

/-! ### Store operations issued by the reconcilers -/

inductive StoreOp where
  | listContainers
  | listObjects (container : String)
  | statContainer (container : String)
  | statObject (container object : String)
  | headContainer (container : String)
  | headObject (container object : String)
  | getContainer (container : String)
  | getAccount
  | deleteContainer (container : String)
  | deleteObjects (container : String) (objects : List String)
  | putContainer (container : String) (headers : List (String × String))
  | putObject (container object copyFrom : String)
deriving DecidableEq, Repr

/-- The operations that mutate the remote store. -/
def StoreOp.isMutating : StoreOp → Bool
  | StoreOp.deleteContainer _ => true
  | StoreOp.deleteObjects _ _ => true
  | StoreOp.putContainer _ _ => true
  | StoreOp.putObject _ _ _ => true
  | _ => false

/-- The delete operations (for the rename non-destruction property). -/
def StoreOp.isDelete : StoreOp → Bool
  | StoreOp.deleteContainer _ => true
  | StoreOp.deleteObjects _ _ => true
  | _ => false

/-! ### The deleted-sweep (`check_container`, swift-check-deleted.py:27-82) -/

/-- The environment a sweep of one tenant runs against: the migration-side
(Swift) containers and objects, and which containers/objects each source
region actually has. -/
structure SweepEnv where
  swiftContainers : List String
  swiftObjects : String → List String
  regions : List String
  regionHas : String → String → Bool
  regionHasObject : String → String → String → Bool

/-- Lines 54-61: probe each region with `client.stat(container=cname)`
until one succeeds (`SwiftError` is passed over), recording the issued
stats and the owning region. -/
def probe_regions (has : String → String → Bool) :
    List String → String → List StoreOp × Option String
  | [], _ => ([], none)
  | r :: rest, cname =>
    if has r cname then ([StoreOp.statContainer cname], some r)
    else
      let p := probe_regions has rest cname
      (StoreOp.statContainer cname :: p.1, p.2)

/-- The object-level part of `check_container` for one migration-side
container, given the probe result: an unowned container (`none`) is
reported and, only under `action == "delete"`, deleted; otherwise the
objects are listed and stat'ed on the owning region (`check_objects`,
lines 27-40), and the missing ones bulk-deleted only under
`action == "delete"`. -/
def sweep_object_ops (env : SweepEnv) (action : String) (cname : String) :
    Option String → List StoreOp
  | none => if action == "delete" then [StoreOp.deleteContainer cname] else []
  | some region =>
    if (env.swiftObjects cname).isEmpty then [StoreOp.listObjects cname]
    else
      [StoreOp.listObjects cname] ++
        (env.swiftObjects cname).map (fun o => StoreOp.statObject cname o) ++
        (if action == "delete" &&
            !(((env.swiftObjects cname).filter
              (fun o => !(env.regionHasObject region cname o))).isEmpty) then
          [StoreOp.deleteObjects cname
            ((env.swiftObjects cname).filter
              (fun o => !(env.regionHasObject region cname o)))]
        else [])

/-- The operations `check_container` issues for one migration-side
container: `_segments` names are skipped outright; otherwise the source
regions are probed and the object-level work follows. -/
def check_one_container (env : SweepEnv) (action : String) (cname : String) :
    List StoreOp :=
  if cname.endsWith "_segments" then []
  else
    (probe_regions env.regionHas env.regions cname).1 ++
      sweep_object_ops env action cname
        (probe_regions env.regionHas env.regions cname).2

/-- `check_container` over the whole tenant: one account listing
(`get_all_containers`) then the per-container work. -/
def check_container_sim (env : SweepEnv) (action : String) : List StoreOp :=
  StoreOp.listContainers ::
    env.swiftContainers.flatMap (fun c => check_one_container env action c)

/-! ### Region state and `rename_container` (util.py:188-226) -/

structure RegionState where
  containers : List String
  aclRead : String → Option String
  aclWrite : String → Option String
  objects : String → List String

/-- The ACL headers copied at container creation (util.py:197-203): only
`x-container-read` and `x-container-write`, each when present. -/
def acl_headers (st : RegionState) (name : String) : List (String × String) :=
  (match st.aclRead name with
   | some v => [("x-container-read", v)]
   | none => []) ++
  (match st.aclWrite name with
   | some v => [("x-container-write", v)]
   | none => [])

/-- The object-copy loop (util.py:212-221): for each object of the old
container, `head_object` it in the new container; if absent, server-side
copy with `X-Copy-From: /<old>/<object>`.  `present` tracks the objects of
the new container as copies land. -/
def copy_loop (name new_name : String) :
    List String → List String → List StoreOp × List String
  | [], present => ([], present)
  | o :: rest, present =>
    if o ∈ present then
      (StoreOp.headObject new_name o :: (copy_loop name new_name rest present).1,
       (copy_loop name new_name rest present).2)
    else
      (StoreOp.headObject new_name o ::
        StoreOp.putObject new_name o ("/" ++ name ++ "/" ++ o) ::
          (copy_loop name new_name rest (present ++ [o])).1,
       (copy_loop name new_name rest (present ++ [o])).2)

/-- `rename_container` (util.py:188-226): head the new-named container;
create it with only the copied ACL headers when absent; list the old
container; copy each missing object.  The deletion of old objects and the
old container is commented out in the source and so absent here.  Returns
the issued operations and the region state afterwards. -/
def rename_container (st : RegionState) (name suffix : String) :
    List StoreOp × RegionState :=
  if name ++ "-" ++ suffix ∈ st.containers then
    (StoreOp.headContainer (name ++ "-" ++ suffix) :: StoreOp.getContainer name ::
       (copy_loop name (name ++ "-" ++ suffix) (st.objects name)
         (st.objects (name ++ "-" ++ suffix))).1,
     { st with objects := fun c =>
        if c = name ++ "-" ++ suffix then
          (copy_loop name (name ++ "-" ++ suffix) (st.objects name)
            (st.objects (name ++ "-" ++ suffix))).2
        else st.objects c })
  else
    (StoreOp.headContainer (name ++ "-" ++ suffix) :: StoreOp.headContainer name ::
       StoreOp.putContainer (name ++ "-" ++ suffix) (acl_headers st name) ::
       StoreOp.getContainer name ::
       (copy_loop name (name ++ "-" ++ suffix) (st.objects name) []).1,
     { st with
        containers := (name ++ "-" ++ suffix) :: st.containers,
        objects := fun c =>
          if c = name ++ "-" ++ suffix then
            (copy_loop name (name ++ "-" ++ suffix) (st.objects name) []).2
          else st.objects c })

/-! ### The duplicate-collision check (`_check_duplicate`,
swift-check-duplicate.py:48-84) -/

/-- One tenant's view in the two regions (`REGION_SUFFIX_MAP` fixes the
suffixes `por` and `wlg`). -/
structure DupTenant where
  name : String
  porState : RegionState
  wlgState : RegionState

/-- The operations issued for one tenant: one account listing per region,
then — only under `action == "rename"` — `rename_container` on each
duplicate name in both regions, threading each region's state through the
successive renames. -/
def check_duplicate_tenant (t : DupTenant) (action : String) : List StoreOp :=
  let dups := t.porState.containers.filter
    (fun n => t.wlgState.containers.contains n)
  [StoreOp.getAccount, StoreOp.getAccount] ++
    (if action == "rename" then
      (dups.foldl
        (fun acc n =>
          let r1 := rename_container acc.2.1 n "por"
          let r2 := rename_container acc.2.2 n "wlg"
          (acc.1 ++ r1.1 ++ r2.1, (r1.2, r2.2)))
        (([] : List StoreOp), (t.porState, t.wlgState))).1
    else [])

def check_duplicate_sim (tenants : List DupTenant) (action : String) :
    List StoreOp :=
  tenants.flatMap (fun t => check_duplicate_tenant t action)

/-! ### Small facts about the hash matcher -/

theorem reMatchHash_empty : reMatchHash "" = false := rfl

/-! ### Claim C2: the skip-decider rule -/

/-- C2: `check_migrate_object` implements exactly the spec's rule: Transfer
when the target is absent; otherwise Skip exactly when, in order, the hash
matches the multipart pattern and the target's `x-object-meta-old-hash`
equals the source hash, or the source has `x-object-manifest` and the
content lengths are equal, or the target etag equals the source hash.  The
hypothesis excludes an `x-object-manifest` header present with an empty
value, which the spec's data model rules out (its value is
"container/prefix") and which Python's truthiness test would treat as
absent. -/
theorem c2_skip_decider_matches_spec (src : SrcObject) (src_header : ObjHeaders)
    (tgt : Option ObjHeaders) (hwf : src_header.objectManifest ≠ some "") :
    (if check_migrate_object src src_header tgt then Decision.Transfer
     else Decision.Skip) = skip_decider_spec src src_header tgt := by
  cases tgt with
  | none => rfl
  | some tgt_header =>
    have h1 : (reMatchHash src.hash && (tgt_header.oldHash.getD "" == src.hash)) =
        (reMatchHash src.hash && (tgt_header.oldHash == some src.hash)) := by
      cases ho : tgt_header.oldHash with
      | none =>
        by_cases hh : src.hash = ""
        · rw [hh]; rfl
        · have hb : (("" : String) == src.hash) = false :=
            beq_eq_false_iff_ne.mpr (fun hcontra => hh hcontra.symm)
          simp [hb]
      | some v => simp [Option.getD_some]
    have h2 : truthy src_header.objectManifest = src_header.objectManifest.isSome := by
      cases hm : src_header.objectManifest with
      | none => rfl
      | some v =>
        have hv : v ≠ "" := by
          intro hcontra
          exact hwf (hcontra ▸ hm)
        simp [truthy, beq_eq_false_iff_ne.mpr hv]
    simp only [check_migrate_object, skip_decider_spec, h1, h2]
    cases hb1 : (reMatchHash src.hash && (tgt_header.oldHash == some src.hash)) <;>
      cases hb2 : (src_header.objectManifest.isSome &&
        (src_header.contentLength == tgt_header.contentLength)) <;>
      cases hb3 : (tgt_header.etag == src.hash) <;> simp

theorem c2_witness :
    ((⟨"e", 1, none, none, none⟩ : ObjHeaders).objectManifest ≠ some "") ∧
    (if check_migrate_object ⟨"a", 1, "abc"⟩ ⟨"e", 1, none, none, none⟩ none
     then Decision.Transfer else Decision.Skip) =
      skip_decider_spec ⟨"a", 1, "abc"⟩ ⟨"e", 1, none, none, none⟩ none :=
  ⟨by decide, c2_skip_decider_matches_spec _ _ _ (by decide)⟩

/-! ### Claim C1: idempotence of the skip decision after a successful copy -/

/-- C1: for every source object that a first copy run migrated successfully
(the target now holds what this tool wrote: `migrated_target_ok`), a second
run of the skip decider on the unchanged source and the resulting target
returns Skip (`check_migrate_object` returns `false`); this covers all five
variants — DLO goes through the content-length rule, objects whose hash
matches the multipart pattern through the old-hash rule, and Normal /
SingleLarge / SLO through the etag rule — hence a second back-to-back run
performs no target writes. -/
theorem c1_rerun_skips (src : SrcObject) (src_header tgt_header : ObjHeaders)
    (h : migrated_target_ok src src_header tgt_header) :
    check_migrate_object src src_header (some tgt_header) = false := by
  obtain ⟨hdlo, hrest⟩ := h
  by_cases hm : truthy src_header.objectManifest = true
  · have hlen := hdlo hm
    simp [check_migrate_object, hm, hlen]
  · have hm' : truthy src_header.objectManifest = false := by
      simpa using hm
    rcases hrest hm' with ⟨hp, hold⟩ | ⟨hnone, hetag⟩
    · simp [check_migrate_object, hp, hold]
    · have hc1 : (reMatchHash src.hash && (tgt_header.oldHash.getD "" == src.hash)) =
          false := by
        rw [hnone]
        by_cases hh : src.hash = ""
        · rw [hh]; rfl
        · have hb : (("" : String) == src.hash) = false :=
            beq_eq_false_iff_ne.mpr (fun hcontra => hh hcontra.symm)
          simp [hb]
      simp [check_migrate_object, hc1, hm', hetag]

theorem c1_witness :
    migrated_target_ok ⟨"a", 1, "abc"⟩ ⟨"x", 3, none, none, none⟩
      ⟨"abc", 3, none, none, none⟩ ∧
    check_migrate_object ⟨"a", 1, "abc"⟩ ⟨"x", 3, none, none, none⟩
      (some ⟨"abc", 3, none, none, none⟩) = false :=
  ⟨by unfold migrated_target_ok; decide,
   c1_rerun_skips _ _ _ (by unfold migrated_target_ok; decide)⟩

/-! ### Claim C5: the multipart marking is unanchored, not the anchored
pattern -/

/-- C5 counterexample: for source hash `abc-def-2` — which does NOT match
the spec's anchored `^\w+-\w+$` — `migrate_object` does set
`x-object-meta-old-hash`, because `HASH_PATTERN.match` only anchors at the
start; so the claimed equivalence with the full-string match is false. -/
theorem c5_counterexample :
    migrate_object_header_list ⟨"m", 100, "abc-def-2"⟩ [] =
      ["x-object-meta-old-hash:abc-def-2"] ∧
    fullMatchHash "abc-def-2" = false ∧
    reMatchHash "abc-def-2" = true :=
  ⟨rfl, rfl, rfl⟩

/-- C5 amended: for every migrated object whose source user metadata does
not itself contain the marker line, the header list built by
`migrate_object` carries `x-object-meta-old-hash:<hash>` exactly when the
source hash has a PREFIX matching `\w+-\w+` (Python `re.match`, unanchored
at the end): hashes such as `abc-def-2` or `abc-def!` are also marked. -/
theorem c5_marking_iff_prefix_match (src : SrcObject)
    (src_head : List (String × String))
    (hmeta : (OLD_HASH_HEADER ++ ":" ++ src.hash) ∉ get_object_user_meta src_head) :
    ((OLD_HASH_HEADER ++ ":" ++ src.hash) ∈ migrate_object_header_list src src_head)
      ↔ reMatchHash src.hash = true := by
  unfold migrate_object_header_list
  by_cases h : reMatchHash src.hash = true
  · simp [h]
  · simp only [Bool.not_eq_true] at h
    simp [h, hmeta]

theorem c5_witness :
    ((OLD_HASH_HEADER ++ ":" ++ "abc-def-2") ∉ get_object_user_meta []) ∧
    (((OLD_HASH_HEADER ++ ":" ++ (⟨"m", 100, "abc-def-2"⟩ : SrcObject).hash) ∈
      migrate_object_header_list ⟨"m", 100, "abc-def-2"⟩ []) ↔
        reMatchHash (⟨"m", 100, "abc-def-2"⟩ : SrcObject).hash = true) :=
  ⟨by decide, c5_marking_iff_prefix_match ⟨"m", 100, "abc-def-2"⟩ [] (by decide)⟩

/-! ### Claim C7: the role grant raises NameError (code bug) -/

/-- C7: at a tenant where the running user holds neither the configured
role (`member` here) nor `admin`, `check_tenant_access` reaches the grant
branch, which evaluates the unbound name `keycon` (util.py:118; the
parameter is `keyconn`) and raises `NameError` — the grant never succeeds,
contradicting the spec's requirement. -/
theorem c7_grant_raises_name_error :
    check_tenant_access "member" ["_member_"] =
      Except.error "NameError: global name 'keycon' is not defined" ∧
    check_tenant_access "member" [] =
      Except.error "NameError: global name 'keycon' is not defined" :=
  ⟨rfl, rfl⟩

/-! ### Claim C9: `util.check_user_access` does not exist -/

/-- C9: `util.py` defines no `check_user_access`, so the attribute lookup
performed first by both `swift-migrate.py` main (line 672) and
`swift-check-deleted.py` main (line 164) raises `AttributeError` before
any worker is launched or tenant processed. -/
theorem c9_entry_points_fail_at_startup :
    utilModuleAttrs.contains "check_user_access" = false ∧
    migrate_main_startup = Except.error
      "AttributeError: 'module' object has no attribute 'check_user_access'" ∧
    check_deleted_main_startup = Except.error
      "AttributeError: 'module' object has no attribute 'check_user_access'" :=
  ⟨rfl, rfl, rfl⟩

/-! ### Claim C10: planning an empty tenant list raises ValueError -/

/-- C10: for an empty tenant list and any concurrency `m ≥ 1`, `_chunks`
computes chunk size `0` and `range(0, 0, 0)` raises `ValueError`: planning
fails with an exception instead of returning an empty bucket list. -/
theorem c10_empty_tenant_list_raises (m : Nat) (hm : 1 ≤ m) :
    _chunks ([] : List Tenant) m =
      Except.error "ValueError: range() arg 3 must not be zero" := by
  have hdiv : (m - 1) / m = 0 := Nat.div_eq_of_lt (by omega)
  simp [_chunks, hdiv]

theorem c10_witness :
    1 ≤ 4 ∧ _chunks ([] : List Tenant) 4 =
      Except.error "ValueError: range() arg 3 must not be zero" :=
  ⟨by decide, c10_empty_tenant_list_raises 4 (by decide)⟩

/-! ### Claim C3: error containment in the per-object loop -/

/-- C3 counterexample: an error at the source-object stat (modelled after
the `KeyError` that swift-migrate.py:374 raises when the stat was not
successful) is NOT caught by the per-object handler: it propagates out of
`migrate_container`, the following object of the same container is never
processed, and no `failed. Reason:` line is appended — refuting the claim
that any error while processing one object (including the stat and the
skip decision) is contained at object scope. -/
theorem c3_counterexample :
    migrate_container_sim
      [⟨⟨"obj1", 10, "h1"⟩, Except.error "KeyError: 'headers'", none, Except.ok ()⟩,
       ⟨⟨"obj2", 20, "h2"⟩, Except.ok ⟨"e2", 20, none, none, none⟩, none,
         Except.error "upload failed"⟩]
      [] = Except.error "KeyError: 'headers'" := rfl

/-- C3 amended: only errors raised inside the per-object `try` block (the
per-variant migration and the post-upload verification) are caught,
appended to the audit as `..failed. Reason: <msg>`, and processing
continues with the next object; when every source-object stat succeeds,
`migrate_container` completes and its audit is the concatenation of the
per-object lines.  Errors raised before the `try` (source stat, skip
decision) instead propagate to the tenant-scope handler in `worker`. -/
theorem c3_try_block_errors_contained (l : List ObjProc) (content : List String)
    (h : ∀ o ∈ l, ∃ hd, o.statOutcome = Except.ok hd) :
    migrate_container_sim l content =
      Except.ok (content ++ l.flatMap object_audit_lines) := by
  induction l generalizing content with
  | nil => simp [migrate_container_sim]
  | cons o rest ih =>
    obtain ⟨hd, hhd⟩ := h o (List.mem_cons_self o rest)
    have hrest : ∀ o' ∈ rest, ∃ hd', o'.statOutcome = Except.ok hd' :=
      fun o' ho' => h o' (List.mem_cons_of_mem _ ho')
    by_cases hc : check_migrate_object o.src hd o.tgtStat = true
    · cases hmig : o.migOutcome with
      | ok u =>
        simp [migrate_container_sim, object_audit_lines, hhd, hc, hmig,
          ih _ hrest, List.flatMap_cons, List.append_assoc]
      | error e =>
        simp [migrate_container_sim, object_audit_lines, hhd, hc, hmig,
          ih _ hrest, List.flatMap_cons, List.append_assoc]
    · simp only [Bool.not_eq_true] at hc
      simp [migrate_container_sim, object_audit_lines, hhd, hc,
        ih _ hrest, List.flatMap_cons, List.append_assoc]

theorem c3_witness :
    migrate_container_sim
      [⟨⟨"a", 5, "h"⟩, Except.ok ⟨"e", 5, none, none, none⟩, none,
        Except.error "boom"⟩] [] =
      Except.ok ["            creating object: a,\tbytes: 5",
                 "             ..failed. Reason: boom"] :=
  (c3_try_block_errors_contained _ [] (by
    intro o ho
    rw [List.mem_singleton] at ho
    subst ho
    exact ⟨_, rfl⟩)).trans (by rfl)

/-! ### Claim C4: bucket partitioning -/

/-- The slices of `_chunks` concatenate back to the original list: for any
chunk size `n ≥ 1`, flattening `[arr[i:i+n] for i in range(0, len(arr), n)]`
gives `arr` back. -/
theorem slices_flatten {α : Type} (n : Nat) (hn : 1 ≤ n) :
    ∀ (k : Nat) (L : List α), (L.length + n - 1) / n = k →
      ((List.range k).map (fun j => (L.drop (j * n)).take n)).flatten = L := by
  intro k
  induction k with
  | zero =>
    intro L hk
    have hlen : L.length = 0 := by
      by_contra hne
      have h1 : 1 ≤ (L.length + n - 1) / n :=
        (Nat.le_div_iff_mul_le (by omega)).mpr (by omega)
      omega
    rw [List.eq_nil_of_length_eq_zero hlen]
    simp
  | succ k ih =>
    intro L hk
    have hlen : 1 ≤ L.length := by
      by_contra hcon
      have h0 : L.length = 0 := by omega
      rw [h0] at hk
      have : (0 + n - 1) / n = 0 := Nat.div_eq_of_lt (by omega)
      omega
    have hq : (L.length - 1) / n = k := by
      have h1 : L.length + n - 1 = (L.length - 1) + n := by omega
      rw [h1, Nat.add_div_right _ (by omega : 0 < n)] at hk
      omega
    have harg : ((L.drop n).length + n - 1) / n = k := by
      rw [List.length_drop]
      by_cases hln : n ≤ L.length
      · have h2 : L.length - n + n - 1 = L.length - 1 := by omega
        rw [h2, hq]
      · have h2 : L.length - n = 0 := by omega
        rw [h2]
        have h3 : (0 + n - 1) / n = 0 := Nat.div_eq_of_lt (by omega)
        have h4 : (L.length - 1) / n = 0 := Nat.div_eq_of_lt (by omega)
        omega
    rw [List.range_succ_eq_map, List.map_cons, List.map_map, List.flatten_cons]
    have htail : (List.map ((fun j => (L.drop (j * n)).take n) ∘ Nat.succ)
        (List.range k)) =
        List.map (fun j => ((L.drop n).drop (j * n)).take n) (List.range k) := by
      apply List.map_congr_left
      intro a _
      simp only [Function.comp_apply]
      rw [List.drop_drop, Nat.succ_mul, Nat.add_comm (a * n) n]
    rw [htail, ih (L.drop n) harg]
    simp [List.take_append_drop]

/-- On a nonempty list and concurrency `m ≥ 1`, `_chunks` succeeds, its
buckets concatenate back to the input, and there are at most `m` buckets. -/
theorem _chunks_ok {α : Type} (arr : List α) (m : Nat) (hm : 1 ≤ m)
    (hne : arr ≠ []) :
    ∃ gs, _chunks arr m = Except.ok gs ∧ gs.flatten = arr ∧ gs.length ≤ m := by
  have hl : 1 ≤ arr.length := by
    have := List.length_pos.mpr hne
    omega
  have hn1 : 1 ≤ (arr.length + m - 1) / m :=
    (Nat.le_div_iff_mul_le (by omega)).mpr (by omega)
  refine ⟨(pyRange arr.length ((arr.length + m - 1) / m)).map
    (fun i => (arr.drop i).take ((arr.length + m - 1) / m)), ?_, ?_, ?_⟩
  · unfold _chunks
    simp only []
    rw [if_neg (by omega)]
  · unfold pyRange
    rw [List.map_map]
    exact slices_flatten _ hn1 _ arr rfl
  · unfold pyRange
    rw [List.length_map, List.length_map, List.length_range]
    -- arr.length ≤ m * n for the chosen chunk size n
    have hdm := Nat.div_add_mod (arr.length + m - 1) m
    have hmod : (arr.length + m - 1) % m < m := Nat.mod_lt _ (by omega)
    have hlenle : arr.length ≤ m * ((arr.length + m - 1) / m) := by omega
    have hexp : (m + 1) * ((arr.length + m - 1) / m) =
        m * ((arr.length + m - 1) / m) + ((arr.length + m - 1) / m) := by ring
    have hbound : arr.length + ((arr.length + m - 1) / m) - 1 <
        (m + 1) * ((arr.length + m - 1) / m) := by omega
    have hfin := (Nat.div_lt_iff_lt_mul
      (show 0 < (arr.length + m - 1) / m by omega)).mpr hbound
    omega

/-- If the summed per-bucket counts of `t` are zero, no bucket contains `t`. -/
theorem countP_mem_of_sum_zero (t : Tenant) : ∀ gs : List (List Tenant),
    (gs.map (List.count t)).sum = 0 →
      gs.countP (fun g => decide (t ∈ g)) = 0 := by
  intro gs
  induction gs with
  | nil => intro _; rfl
  | cons g rest ih =>
    intro hsum
    rw [List.map_cons, List.sum_cons] at hsum
    have hg : List.count t g = 0 := by omega
    have hrest : (rest.map (List.count t)).sum = 0 := by omega
    have hng : t ∉ g := List.count_eq_zero.mp hg
    rw [List.countP_cons]
    simp [hng, ih hrest]

/-- If the per-bucket counts of `t` are each at most one and sum to one,
exactly one bucket contains `t`. -/
theorem countP_mem_of_sum_one (t : Tenant) : ∀ gs : List (List Tenant),
    (∀ g ∈ gs, List.count t g ≤ 1) → (gs.map (List.count t)).sum = 1 →
      gs.countP (fun g => decide (t ∈ g)) = 1 := by
  intro gs
  induction gs with
  | nil => intro _ hsum; simp at hsum
  | cons g rest ih =>
    intro hle hsum
    rw [List.map_cons, List.sum_cons] at hsum
    have hg1 : List.count t g ≤ 1 := hle g (List.mem_cons_self g rest)
    rw [List.countP_cons]
    rcases Nat.lt_or_ge 0 (List.count t g) with hpos | hzero
    · have hmem : t ∈ g := List.count_pos_iff.mp hpos
      have hrest : (rest.map (List.count t)).sum = 0 := by omega
      simp [hmem, countP_mem_of_sum_zero t rest hrest]
    · have hg0 : List.count t g = 0 := by omega
      have hng : t ∉ g := List.count_eq_zero.mp hg0
      have hrest : (rest.map (List.count t)).sum = 1 := by omega
      simp [hng, ih (fun g' hg' => hle g' (List.mem_cons_of_mem _ hg')) hrest]

/-- C4 counterexample: with the include list `["a", "a"]` (a repeated
name), one matching tenant and concurrency 2, the planner produces two
buckets both containing that tenant: the buckets are not disjoint and the
tenant occurs in two buckets, not exactly one — refuting the claim for
filtered sequences built from a repeating include list. -/
theorem c4_counterexample :
    _get_tenants_group_include [⟨"1", "a"⟩] ["a", "a"] 2 =
      Except.ok [[⟨"1", "a"⟩], [⟨"1", "a"⟩]] ∧
    ([[⟨"1", "a"⟩], [⟨"1", "a"⟩]] : List (List Tenant)).countP
      (fun g => decide ((⟨"1", "a"⟩ : Tenant) ∈ g)) = 2 :=
  ⟨rfl, rfl⟩

/-- C4 amended: for every NONEMPTY, DUPLICATE-FREE filtered tenant sequence
and concurrency `m ≥ 1`, the planner's buckets concatenate back to the
sequence (so their union is the filtered set), are pairwise disjoint, hold
each tenant exactly once, and number at most `m`.  (Nonemptiness is forced
by the `ValueError` of claim C10; duplicate-freedom by the counterexample
above — an include list may repeat names and then a tenant lands in two
buckets.) -/
theorem c4_buckets_partition (l : List Tenant) (m : Nat) (hm : 1 ≤ m)
    (hne : l ≠ []) (hnd : l.Nodup) :
    ∃ gs, _chunks l m = Except.ok gs ∧
      gs.flatten = l ∧
      gs.length ≤ m ∧
      List.Pairwise List.Disjoint gs ∧
      ∀ t ∈ l, gs.countP (fun g => decide (t ∈ g)) = 1 := by
  obtain ⟨gs, hok, hflat, hlen⟩ := _chunks_ok l m hm hne
  have hnodupf : gs.flatten.Nodup := by rw [hflat]; exact hnd
  obtain ⟨hall, hpair⟩ := List.nodup_flatten.mp hnodupf
  refine ⟨gs, hok, hflat, hlen, hpair, ?_⟩
  intro t ht
  have hcount : List.count t gs.flatten = 1 := by
    rw [hflat]
    exact List.count_eq_one_of_mem hnd ht
  rw [List.count_flatten] at hcount
  exact countP_mem_of_sum_one t gs
    (fun g hg => List.nodup_iff_count_le_one.mp (hall g hg) t) hcount

theorem c4_witness :
    (1 : Nat) ≤ 2 ∧ ([⟨"1", "a"⟩, ⟨"2", "b"⟩, ⟨"3", "c"⟩] : List Tenant) ≠ [] ∧
    ([⟨"1", "a"⟩, ⟨"2", "b"⟩, ⟨"3", "c"⟩] : List Tenant).Nodup ∧
    ∃ gs, _chunks ([⟨"1", "a"⟩, ⟨"2", "b"⟩, ⟨"3", "c"⟩] : List Tenant) 2 =
        Except.ok gs ∧
      gs.flatten = [⟨"1", "a"⟩, ⟨"2", "b"⟩, ⟨"3", "c"⟩] ∧
      gs.length ≤ 2 ∧
      List.Pairwise List.Disjoint gs ∧
      ∀ t ∈ ([⟨"1", "a"⟩, ⟨"2", "b"⟩, ⟨"3", "c"⟩] : List Tenant),
        gs.countP (fun g => decide (t ∈ g)) = 1 :=
  ⟨by decide, by decide, by decide,
   c4_buckets_partition _ 2 (by decide) (by decide) (by decide)⟩

/-! ### Claim C6: the reconcilers issue no mutations under action=report -/

/-- Region probing only issues container stats. -/
theorem probe_regions_ops (has : String → String → Bool) :
    ∀ (rs : List String) (cname : String) (op : StoreOp),
      op ∈ (probe_regions has rs cname).1 → op = StoreOp.statContainer cname := by
  intro rs
  induction rs with
  | nil =>
    intro cname op h
    simp [probe_regions] at h
  | cons r rest ih =>
    intro cname op h
    simp only [probe_regions] at h
    by_cases hr : has r cname = true
    · rw [if_pos hr] at h
      simpa using h
    · rw [if_neg hr] at h
      rcases List.mem_cons.mp h with h | h
      · exact h
      · exact ih cname op h

/-- With `action = "report"`, the per-container sweep issues no mutating
operation. -/
theorem check_one_container_report_ops (env : SweepEnv) (cname : String) :
    ∀ op ∈ check_one_container env "report" cname, op.isMutating = false := by
  intro op hop
  unfold check_one_container at hop
  by_cases hseg : cname.endsWith "_segments" = true
  · rw [if_pos hseg] at hop
    simp at hop
  · rw [if_neg hseg] at hop
    rcases List.mem_append.mp hop with h | h
    · rw [probe_regions_ops env.regionHas env.regions cname op h]
      rfl
    · cases hfound : (probe_regions env.regionHas env.regions cname).2 with
      | none =>
        rw [hfound] at h
        simp only [sweep_object_ops] at h
        have hrd : (("report" : String) == "delete") = false := by decide
        rw [hrd] at h
        simp at h
      | some region =>
        rw [hfound] at h
        simp only [sweep_object_ops] at h
        by_cases hemp : (env.swiftObjects cname).isEmpty = true
        · rw [if_pos hemp] at h
          rcases List.mem_singleton.mp h with h
          rw [h]; rfl
        · rw [if_neg hemp] at h
          have hrd : ((("report" : String) == "delete") &&
              !(((env.swiftObjects cname).filter
                (fun o => !(env.regionHasObject region cname o))).isEmpty)) = false := by
            simp
          rw [hrd] at h
          simp only [Bool.false_eq_true, if_false, List.append_nil] at h
          rcases List.mem_append.mp h with h | h
          · rcases List.mem_singleton.mp h with h
            rw [h]; rfl
          · obtain ⟨o, _, hmap⟩ := List.mem_map.mp h
            rw [← hmap]; rfl

/-- C6: for every environment and tenant set, neither the deleted-sweep
with `action=report` nor the duplicate-collision check with
`action=report` issues any mutating store operation (no
delete_container/delete_objects/put_container/put_object): only
list/stat/head/get calls occur. -/
theorem c6_report_is_read_only (env : SweepEnv) (tenants : List DupTenant) :
    ((check_container_sim env "report").all (fun op => !op.isMutating)) = true ∧
    ((check_duplicate_sim tenants "report").all (fun op => !op.isMutating)) = true := by
  constructor
  · rw [List.all_eq_true]
    intro op hop
    rcases List.mem_cons.mp hop with h | h
    · rw [h]; rfl
    · obtain ⟨c, _, hco⟩ := List.mem_flatMap.mp h
      rw [check_one_container_report_ops env c op hco]
      rfl
  · rw [List.all_eq_true]
    intro op hop
    obtain ⟨t, _, hto⟩ := List.mem_flatMap.mp (by
      simpa only [check_duplicate_sim] using hop)
    unfold check_duplicate_tenant at hto
    have hrr : (("report" : String) == "rename") = false := by decide
    rw [hrr] at hto
    simp only [Bool.false_eq_true, if_false, List.append_nil] at hto
    rcases List.mem_cons.mp hto with h | h
    · rw [h]; rfl
    · rcases List.mem_singleton.mp h with h
      rw [h]; rfl

/-! ### Claim C8: rename behavior of the duplicate-collision tool -/

/-- Every operation of the copy loop is a head of the new container or a
server-side copy (`X-Copy-From: /<old>/<object>`) of an old-container
object that was not already present. -/
theorem copy_loop_ops (name new_name : String) :
    ∀ (l present : List String) (op : StoreOp),
      op ∈ (copy_loop name new_name l present).1 →
        (∃ o, op = StoreOp.headObject new_name o) ∨
        (∃ o, o ∈ l ∧ o ∉ present ∧
          op = StoreOp.putObject new_name o ("/" ++ name ++ "/" ++ o)) := by
  intro l
  induction l with
  | nil =>
    intro present op h
    simp [copy_loop] at h
  | cons x rest ih =>
    intro present op h
    simp only [copy_loop] at h
    by_cases hp : x ∈ present
    · rw [if_pos hp] at h
      rcases List.mem_cons.mp h with h | h
      · exact Or.inl ⟨x, h⟩
      · rcases ih present op h with hh | ⟨o', h1, h2, h3⟩
        · exact Or.inl hh
        · exact Or.inr ⟨o', List.mem_cons_of_mem _ h1, h2, h3⟩
    · rw [if_neg hp] at h
      rcases List.mem_cons.mp h with h | h
      · exact Or.inl ⟨x, h⟩
      · rcases List.mem_cons.mp h with h | h
        · exact Or.inr ⟨x, List.mem_cons_self x rest, hp, h⟩
        · rcases ih (present ++ [x]) op h with hh | ⟨o', h1, h2, h3⟩
          · exact Or.inl hh
          · refine Or.inr ⟨o', List.mem_cons_of_mem _ h1, ?_, h3⟩
            intro hc
            exact h2 (List.mem_append_left _ hc)

/-- After the copy loop, the new container holds every object of the old
listing and everything that was already present. -/
theorem copy_loop_collects (name new_name : String) :
    ∀ (l present : List String) (o : String),
      o ∈ l ∨ o ∈ present → o ∈ (copy_loop name new_name l present).2 := by
  intro l
  induction l with
  | nil =>
    intro present o h
    rcases h with h | h
    · simp at h
    · simpa [copy_loop] using h
  | cons x rest ih =>
    intro present o h
    simp only [copy_loop]
    by_cases hp : x ∈ present
    · rw [if_pos hp]
      apply ih
      rcases h with h | h
      · rcases List.mem_cons.mp h with h | h
        · exact Or.inr (h ▸ hp)
        · exact Or.inl h
      · exact Or.inr h
    · rw [if_neg hp]
      apply ih
      rcases h with h | h
      · rcases List.mem_cons.mp h with h | h
        · refine Or.inr ?_
          rw [h]
          exact List.mem_append_right _ (List.mem_singleton.mpr rfl)
        · exact Or.inl h
      · exact Or.inr (List.mem_append_left _ h)

/-- The copy loop never deletes. -/
theorem copy_loop_no_deletes (name new_name : String) (l present : List String) :
    ∀ op ∈ (copy_loop name new_name l present).1, op.isDelete = false := by
  intro op hop
  rcases copy_loop_ops name new_name l present op hop with ⟨o, h⟩ | ⟨o, _, _, h⟩ <;>
    rw [h] <;> rfl

/-- An object already present in the new container is never server-side
copied by the loop. -/
theorem copy_loop_skips_present (name new_name : String) (l present : List String)
    (o : String) (ho : o ∈ present) (cf : String) :
    StoreOp.putObject new_name o cf ∉ (copy_loop name new_name l present).1 := by
  intro hmem
  rcases copy_loop_ops name new_name l present _ hmem with ⟨o', h⟩ | ⟨o', _, hnp, h⟩
  · simp at h
  · have h' := h
    simp only [StoreOp.putObject.injEq] at h'
    exact hnp (h'.2.1 ▸ ho)

/-- The old container name differs from the suffixed new name. -/
theorem rename_target_ne (name suffix : String) :
    name ≠ name ++ "-" ++ suffix := by
  intro h
  have hlen := congrArg String.length h
  rw [String.length_append, String.length_append] at hlen
  have hone : ("-" : String).length = 1 := rfl
  omega

/-- C8: for every region state, duplicate container name and region
suffix, `rename_container` (as invoked by `_check_duplicate` with
`action=rename` on each of the two regions): (1) ensures the container
`<name>-<suffix>` exists afterwards; (2) every object of the old container
is in the new container afterwards; (3) issues no delete operation; (4)
every object write is a server-side copy into the new container with
`X-Copy-From: /<old>/<object>` of an old-container object; (5) skips
creation when the new container already exists; (6) otherwise creates it
with exactly the copied ACL headers, (7) which hold only
`x-container-read`/`x-container-write`; (8) objects already present in the
new container are not copied again; and (9, 10) the original container and
its objects are left untouched. -/
theorem c8_rename_container_behavior (st : RegionState) (name suffix : String) :
    ((name ++ "-" ++ suffix) ∈ (rename_container st name suffix).2.containers) ∧
    (∀ o ∈ st.objects name,
      o ∈ (rename_container st name suffix).2.objects (name ++ "-" ++ suffix)) ∧
    ((rename_container st name suffix).1.all (fun op => !op.isDelete) = true) ∧
    (∀ c o cf, StoreOp.putObject c o cf ∈ (rename_container st name suffix).1 →
      c = name ++ "-" ++ suffix ∧ cf = "/" ++ name ++ "/" ++ o ∧
        o ∈ st.objects name) ∧
    ((name ++ "-" ++ suffix) ∈ st.containers →
      ∀ c hs, StoreOp.putContainer c hs ∉ (rename_container st name suffix).1) ∧
    ((name ++ "-" ++ suffix) ∉ st.containers →
      StoreOp.putContainer (name ++ "-" ++ suffix) (acl_headers st name) ∈
        (rename_container st name suffix).1) ∧
    (∀ kv ∈ acl_headers st name,
      kv.1 = "x-container-read" ∨ kv.1 = "x-container-write") ∧
    ((name ++ "-" ++ suffix) ∈ st.containers →
      ∀ o ∈ st.objects (name ++ "-" ++ suffix), ∀ cf,
        StoreOp.putObject (name ++ "-" ++ suffix) o cf ∉
          (rename_container st name suffix).1) ∧
    ((rename_container st name suffix).2.objects name = st.objects name) ∧
    (name ∈ st.containers → name ∈ (rename_container st name suffix).2.containers) := by
  have hne := rename_target_ne name suffix
  have hacl : ∀ kv ∈ acl_headers st name,
      kv.1 = "x-container-read" ∨ kv.1 = "x-container-write" := by
    intro kv hkv
    unfold acl_headers at hkv
    rcases List.mem_append.mp hkv with h | h
    · cases hr : st.aclRead name with
      | none => rw [hr] at h; simp at h
      | some v =>
        rw [hr] at h
        rcases List.mem_singleton.mp h with h
        rw [h]
        exact Or.inl rfl
    · cases hw : st.aclWrite name with
      | none => rw [hw] at h; simp at h
      | some v =>
        rw [hw] at h
        rcases List.mem_singleton.mp h with h
        rw [h]
        exact Or.inr rfl
  by_cases hex : (name ++ "-" ++ suffix) ∈ st.containers
  · refine ⟨?_, ?_, ?_, ?_, ?_, ?_, hacl, ?_, ?_, ?_⟩
    · simp only [rename_container, if_pos hex]
      exact hex
    · intro o ho
      simp only [rename_container, if_pos hex, if_pos rfl]
      exact copy_loop_collects _ _ _ _ o (Or.inl ho)
    · simp only [rename_container, if_pos hex]
      rw [List.all_eq_true]
      intro op hop
      rcases List.mem_cons.mp hop with h | h
      · rw [h]; rfl
      · rcases List.mem_cons.mp h with h | h
        · rw [h]; rfl
        · rw [copy_loop_no_deletes _ _ _ _ op h]
          rfl
    · intro c o cf hmem
      simp only [rename_container, if_pos hex] at hmem
      rcases List.mem_cons.mp hmem with h | h
      · simp at h
      · rcases List.mem_cons.mp h with h | h
        · simp at h
        · rcases copy_loop_ops _ _ _ _ _ h with ⟨o', heq⟩ | ⟨o', ho', _, heq⟩
          · simp at heq
          · simp only [StoreOp.putObject.injEq] at heq
            exact ⟨heq.1, heq.2.1 ▸ heq.2.2, heq.2.1 ▸ ho'⟩
    · intro _ c hs hmem
      simp only [rename_container, if_pos hex] at hmem
      rcases List.mem_cons.mp hmem with h | h
      · simp at h
      · rcases List.mem_cons.mp h with h | h
        · simp at h
        · rcases copy_loop_ops _ _ _ _ _ h with ⟨o', heq⟩ | ⟨o', _, _, heq⟩ <;>
            simp at heq
    · intro hcon
      exact absurd hex hcon
    · intro _ o ho cf hmem
      simp only [rename_container, if_pos hex] at hmem
      rcases List.mem_cons.mp hmem with h | h
      · simp at h
      · rcases List.mem_cons.mp h with h | h
        · simp at h
        · exact copy_loop_skips_present _ _ _ _ o ho cf h
    · simp only [rename_container, if_pos hex]
      rw [if_neg hne]
    · intro hn
      simp only [rename_container, if_pos hex]
      exact hn
  · refine ⟨?_, ?_, ?_, ?_, ?_, ?_, hacl, ?_, ?_, ?_⟩
    · simp only [rename_container, if_neg hex]
      exact List.mem_cons_self _ _
    · intro o ho
      simp only [rename_container, if_neg hex, if_pos rfl]
      exact copy_loop_collects _ _ _ _ o (Or.inl ho)
    · simp only [rename_container, if_neg hex]
      rw [List.all_eq_true]
      intro op hop
      rcases List.mem_cons.mp hop with h | h
      · rw [h]; rfl
      · rcases List.mem_cons.mp h with h | h
        · rw [h]; rfl
        · rcases List.mem_cons.mp h with h | h
          · rw [h]; rfl
          · rcases List.mem_cons.mp h with h | h
            · rw [h]; rfl
            · rw [copy_loop_no_deletes _ _ _ _ op h]
              rfl
    · intro c o cf hmem
      simp only [rename_container, if_neg hex] at hmem
      rcases List.mem_cons.mp hmem with h | h
      · simp at h
      · rcases List.mem_cons.mp h with h | h
        · simp at h
        · rcases List.mem_cons.mp h with h | h
          · simp at h
          · rcases List.mem_cons.mp h with h | h
            · simp at h
            · rcases copy_loop_ops _ _ _ _ _ h with ⟨o', heq⟩ | ⟨o', ho', _, heq⟩
              · simp at heq
              · simp only [StoreOp.putObject.injEq] at heq
                exact ⟨heq.1, heq.2.1 ▸ heq.2.2, heq.2.1 ▸ ho'⟩
    · intro hcon
      exact absurd hcon hex
    · intro _
      simp only [rename_container, if_neg hex]
      exact List.mem_cons_of_mem _ (List.mem_cons_of_mem _ (List.mem_cons_self _ _))
    · intro hcon
      exact absurd hcon hex
    · simp only [rename_container, if_neg hex]
      rw [if_neg hne]
    · intro hn
      simp only [rename_container, if_neg hex]
      exact List.mem_cons_of_mem _ hn

theorem c8_witness :
    ("a" ∈ (rename_container
        ⟨["c"], fun _ => none, fun _ => none,
          fun n => if n = "c" then ["a"] else []⟩ "c" "por").2.objects
            ("c" ++ "-" ++ "por")) ∧
    ((rename_container
        ⟨["c"], fun _ => none, fun _ => none,
          fun n => if n = "c" then ["a"] else []⟩ "c" "por").1.all
      (fun op => !op.isDelete) = true) :=
  ⟨(c8_rename_container_behavior
      ⟨["c"], fun _ => none, fun _ => none,
        fun n => if n = "c" then ["a"] else []⟩ "c" "por").2.1 "a" (by simp),
   (c8_rename_container_behavior
      ⟨["c"], fun _ => none, fun _ => none,
        fun n => if n = "c" then ["a"] else []⟩ "c" "por").2.2.1⟩
